import Mathlib

/-!
# Verification of `devchat/engine/command_runner.py`

A shallow embedding of the `CommandRunner` class from
`src/devchat/engine/command_runner.py` together with proofs about the
claims of the specification.

Modelling conventions:

* Python strings are `String` (lists of characters); `str.replace`,
  `str.find`, `str.strip`, `str.split`, `str.startswith` are re-implemented
  on `List Char` with Python's left-to-right non-overlapping semantics
  (`pyReplace`, `pyContains`, `pyStrip`, `splitOnChar`, `pyStartsWith`).
* Python dicts are ordered association lists (`Env`); `dict.update`
  replaces the value of an existing key in place and appends new keys,
  exactly as Python's insertion-order semantics (`upsert`, `dictUpdate`).
* Environment values (`Value`) are either strings (`vstr`) or structured
  non-string data (`vraw render dump truthy`: the `str()` rendering, the
  `json.dumps` rendering, and Python truthiness).
* Effects are oracles recorded in a `Ctx`: the ambient `os.environ`
  (`osEnv`), `sys.executable`, the filesystem's `runtime.json` contents
  (`fsRuntime`, where `RuntimeRead.raisesErr` stands for an unreadable or
  malformed file whose read raises), README presence (`readme : Bool`,
  the truthiness of `__get_readme`: a missing, unreadable or empty
  `README.md` is falsy), the subprocess spawn (`exec`, `none` = the spawn
  or its I/O raised) and the LLM call (`llm`, `none` = the model declined).
* Python exceptions inside the `try` of `run_command_with_parameters`
  are modelled with `Option`: `none` propagates to the handler, which
  yields the default `(-1, "")` result.
* An invocation's observable outcome is an `Outcome`: the returned value
  (`none` = Python `None`), whether a child process spawn was attempted,
  the diagnostics printed to stderr, and whether the LLM was invoked.
-/

namespace DevChat

set_option maxRecDepth 16384

/-! ## Python string primitives -/

/-- Python whitespace characters, as used by `str.strip()`. -/
def isPyWhite (c : Char) : Bool :=
  c = ' ' || c = '\t' || c = '\n' || c = '\r' || c = '\x0b' || c = '\x0c'

/-- `str.strip()`: drop leading and trailing whitespace. -/
def pyStrip (s : String) : String :=
  ⟨((s.data.dropWhile isPyWhite).reverse.dropWhile isPyWhite).reverse⟩

/-- Left-to-right non-overlapping replacement of `pat` by `rep`, as in
Python's `str.replace`.  The fuel argument is an upper bound on the length
of the remaining text; it makes the recursion structural. -/
def replaceAllFuel (pat rep : List Char) : Nat → List Char → List Char
  | _, [] => []
  | 0, s => s
  | fuel+1, a :: s =>
    if !pat.isEmpty && pat.isPrefixOf (a :: s) then
      rep ++ replaceAllFuel pat rep fuel ((a :: s).drop pat.length)
    else
      a :: replaceAllFuel pat rep fuel s

/-- Replacement on character lists with fuel `s.length`. -/
def replaceAll (s pat rep : List Char) : List Char :=
  replaceAllFuel pat rep s.length s

/-- Python `s.replace(pat, rep)` (for the non-empty patterns this module
uses). -/
def pyReplace (s pat rep : String) : String :=
  ⟨replaceAll s.data pat.data rep.data⟩

/-- Does `pat` occur inside the haystack?  Python `s.find(pat) != -1`. -/
def containsSub : List Char → List Char → Bool
  | _, [] => true
  | [], _ => false
  | h :: t, pat => pat.isPrefixOf (h :: t) || containsSub t pat

/-- Python `s.find(pat) != -1`. -/
def pyContains (s pat : String) : Bool := containsSub s.data pat.data

/-- Python `s.startswith(pre)`. -/
def pyStartsWith (s pre : String) : Bool := pre.data.isPrefixOf s.data

/-- Python `s.split(sep)` for a single-character separator. -/
def splitOnChar (sep : Char) : List Char → List (List Char)
  | [] => [[]]
  | c :: rest =>
    match splitOnChar sep rest with
    | [] => [[]]
    | g :: gs => if c = sep then [] :: g :: gs else (c :: g) :: gs

/-- The prefix of `l` up to and including its last `'/'`, when `l`
contains one (`p[: p.rfind('/') + 1]`). -/
def takeUntilLastSlash : List Char → Option (List Char)
  | [] => none
  | c :: rest =>
    match takeUntilLastSlash rest with
    | some t => some (c :: t)
    | none => if c = '/' then some ['/'] else none

/-- `os.path.dirname` on POSIX paths: keep everything before the last
slash, then strip trailing slashes unless the head is all slashes. -/
def pyDirname (p : String) : String :=
  match takeUntilLastSlash p.data with
  | none => ""
  | some head =>
    if head.all (· = '/') then ⟨head⟩
    else ⟨(head.reverse.dropWhile (· = '/')).reverse⟩

/-- `os.path.join(dir, "runtime.json")` on POSIX paths. -/
def joinRuntime (dir : String) : String :=
  if dir.data.isEmpty then "runtime.json"
  else if dir.data.getLast? = some '/' then dir ++ "runtime.json"
  else dir ++ "/runtime.json"

/-! ## Values and dictionaries -/

/-- A Python value stored in the environment mapping: either a string, or
structured non-string data carrying its `str()` rendering, its
`json.dumps` rendering and its truthiness. -/
inductive Value where
  | vstr (s : String)
  | vraw (render : String) (dump : String) (truthyFlag : Bool)
deriving DecidableEq, Repr

/-- Python `str(v)`. -/
def Value.str : Value → String
  | vstr s => s
  | vraw r _ _ => r

/-- Python truthiness of the value. -/
def Value.truthy : Value → Bool
  | vstr s => !(s = "")
  | vraw _ _ t => t

/-- Python `v == ""` (only a string compares equal to a string). -/
def Value.isEmptyStr : Value → Bool
  | vstr s => s = ""
  | vraw _ _ _ => false

/-- The `json.dumps` marshalling applied to list/dict values before the
process spawn (`isinstance(env[key], (List, Dict))` branch). -/
def Value.dumped : Value → Value
  | vstr s => vstr s
  | vraw _ d _ => vstr d

/-- An insertion-ordered string-keyed mapping, as a Python dict. -/
abbrev Env := List (String × Value)

/-- `d[k]` as an option (`dict.get(k, None)`). -/
def dictGet? (d : Env) (k : String) : Option Value :=
  (d.find? (fun p => p.1 = k)).map (·.2)

/-- `k in d`. -/
def hasKey (d : Env) (k : String) : Bool := d.any (fun p => p.1 = k)

/-- `d[k] = v` on a Python dict: replace the value in place when the key
exists, append the binding otherwise. -/
def upsert (d : Env) (k : String) (v : Value) : Env :=
  if hasKey d k then d.map (fun p => if p.1 = k then (k, v) else p)
  else d ++ [(k, v)]

/-- `base.update(upd)`: apply `upsert` for each binding of `upd` in
order. -/
def dictUpdate (base upd : Env) : Env :=
  upd.foldl (fun acc p => upsert acc p.1 p.2) base

/-- `del d[k]` after a successful membership test. -/
def dictDel (d : Env) (k : String) : Env :=
  d.filter (fun p => !(p.1 = k))

/-- `d.get(k, None)` followed by a truthiness test. -/
def truthyGet (d : Env) (k : String) : Bool :=
  match dictGet? d k with
  | some v => v.truthy
  | none => false

/-! ## The command and the invocation context -/

/-- The slice of a parsed `Command` that `command_runner.py` consumes:
its filesystem `path`, its `input` requirement field, the names of its
declared `parameters` (`none` = the attribute is `None`; only the keys of
the mapping are read by this module), and the `run` strings of its
`steps`. -/
structure Command where
  path : String
  input : String
  parameters : Option (List String)
  steps : List String
deriving DecidableEq, Repr

/-- The key list of `command.parameters`, as used by
`__check_parameters_miss_error` (`command.parameters.keys() if
command.parameters else []`; an absent or empty mapping both give `[]`). -/
def Command.paramNames (c : Command) : List String :=
  match c.parameters with
  | none => []
  | some l => l

/-- Result of attempting to read one `runtime.json` file: the file does
not exist, the read or the JSON parse raises, or it yields a JSON object
of string key-value pairs (the shape the external interface prescribes
for runtime configs). -/
inductive RuntimeRead where
  | missing
  | raisesErr
  | ok (cfg : List (String × String))

/-- The external world of one invocation: ambient `os.environ`,
`sys.executable`, `runtime.json` contents per path, the truthiness of
`__get_readme` (a missing, unreadable or empty `README.md` is `false`),
the subprocess spawn (`none` = the spawn or its pipe I/O raised), and the
LLM function-call oracle (`none` = `select_function_by_llm` was falsy). -/
structure Ctx where
  osEnv : List (String × String)
  sysExecutable : String
  fsRuntime : String → RuntimeRead
  readme : Bool
  exec : String → Env → Option (Int × String)
  llm : Option Env

/-- Ambient `os.environ.get(k, None)`. -/
def osGet (l : List (String × String)) (k : String) : Option String :=
  (l.find? (fun p => p.1 = k)).map (·.2)

/-- The observable outcome of one invocation: the returned value
(`none` = Python `None`), whether a child-process spawn was attempted,
the diagnostics printed to stderr, and whether the LLM was invoked. -/
structure Outcome where
  result : Option (Int × String)
  spawned : Bool
  errOut : List String
  llmCalled : Bool
deriving DecidableEq, Repr

/-! ## Messages printed by the runner -/

/-- `DEVCHAT_COMMAND_MISS_ERROR_MESSAGE` from the source. -/
def devchatCommandMissErrorMessage : String :=
  "devchat-commands environment is not installed yet. " ++
  "Please install it before using the current command." ++
  "The devchat-command environment is automatically " ++
  "installed after the plugin starts," ++
  " and details can be viewed in the output window."

/-- The diagnostic of `run_command` when the LLM produced no arguments. -/
def noValidParamsMessage : String := "No valid parameters generated by LLM"

/-- The usage hint of `__check_input_miss_error`. -/
def inputMissMessage (commandName : String) : String :=
  commandName ++ " workflow is missing input. Example usage: '/" ++
  commandName ++ " user input'\n"

/-- The stderr line of `__check_parameters_miss_error`. -/
def missingParamsMessage : String := "Missing parameters:"

/-- Marker for the `except`-handler line `print("Exception:", ...)`. -/
def exceptionMessage : String := "Exception:"

/-! ## The pipeline of `run_command_with_parameters` -/

/-- The `runtime.json` file paths visited by `__load_command_runtime`:
for every prefix of the `"/"`-split of the command's directory, in order
from the filesystem root downwards, join it with `"runtime.json"`. -/
def runtimeFiles (command : Command) : List String :=
  let commandPath := pyDirname command.path
  let parts := splitOnChar '/' commandPath.data
  ((List.range parts.length).map
      (fun i => (⟨List.intercalate ['/'] (parts.take (i + 1))⟩ : String))).map
    joinRuntime

/-- One iteration of the `__load_command_runtime` loop: merge the
`runtime.json` at path `p` into the accumulator when it is readable,
silently skip it when it is missing or its read raises. -/
def runtimeStep (fs : String → RuntimeRead) (acc : Env) (p : String) : Env :=
  match fs p with
  | RuntimeRead.ok c =>
    dictUpdate acc (c.map (fun kv => (kv.1, Value.vstr kv.2)))
  | _ => acc

/-- `__load_command_runtime`: walk every prefix of the command's
directory from the filesystem root downwards, merging each readable
`runtime.json` into the accumulator (deeper directories override),
silently skipping missing and raising files; finally normalize a truthy
`command_python` value's backslashes. -/
def loadCommandRuntime (fs : String → RuntimeRead) (command : Command) : Env :=
  let cfg := (runtimeFiles command).foldl (runtimeStep fs) []
  match dictGet? cfg "command_python" with
  | some v =>
    if v.truthy then
      upsert cfg "command_python" (Value.vstr (pyReplace v.str "\\" "/"))
    else cfg
  | none => cfg

/-- `__load_chat_data`: the three chat/session variables.  For the string
fields, `x if x else ""` is the identity on strings; for the history, a
falsy list is replaced by the empty list. -/
def loadChatData (modelName parentHash : String) (history : Value) : Env :=
  [("LLM_MODEL", Value.vstr modelName),
   ("PARENT_HASH", Value.vstr parentHash),
   ("CONTEXT_CONTENTS", if history.truthy then history else Value.vraw "[]" "[]" false)]

/-- `__update_devchat_python_path`: inject `DEVCHAT_PYTHONPATH` (ambient
`DEVCHAT_PYTHONPATH`, else ambient `PYTHONPATH`, else `""`), delete
`PYTHONPATH` when the run string does not contain `"$devchat_python "`
(`none` models the `KeyError` the `del` raises when the key is absent),
then inject `devchat_python` (the normalized interpreter path). -/
def updateDevchatPythonPath (ctx : Ctx) (env : Env) (commandRun : String) :
    Option Env :=
  let pythonPath := (osGet ctx.osEnv "PYTHONPATH").getD ""
  let env1 := upsert env "DEVCHAT_PYTHONPATH"
    (Value.vstr ((osGet ctx.osEnv "DEVCHAT_PYTHONPATH").getD pythonPath))
  let env2 : Option Env :=
    if pyContains commandRun "$devchat_python " then some env1
    else if hasKey env1 "PYTHONPATH" then some (dictDel env1 "PYTHONPATH")
    else none
  env2.map (fun e =>
    upsert e "devchat_python" (Value.vstr (pyReplace ctx.sysExecutable "\\" "/")))

/-- Lines 97–100: `os.environ.copy()`, then `update(parameters)`,
`update(runtime config)`, `update(chat data)`. -/
def mergedEnv (ctx : Ctx) (command : Command) (parameters : Env)
    (modelName parentHash : String) (history : Value) : Env :=
  let env0 := dictUpdate (ctx.osEnv.map (fun p => (p.1, Value.vstr p.2))) parameters
  let env1 := dictUpdate env0 (loadCommandRuntime ctx.fsRuntime command)
  dictUpdate env1 (loadChatData modelName parentHash history)

/-- Lines 97–101: the merged environment after
`__update_devchat_python_path` (`none` = the `del` raised). -/
def buildEnv (ctx : Ctx) (command : Command) (parameters : Env)
    (modelName parentHash : String) (history : Value) (run : String) :
    Option Env :=
  updateDevchatPythonPath ctx
    (mergedEnv ctx command parameters modelName parentHash history) run

/-- Lines 103–105: for every key of the environment in iteration order,
replace `$key` by `str(value)` in the run string. -/
def substituteRun (env : Env) (run : String) : String :=
  env.foldl (fun acc p => pyReplace acc ("$" ++ p.1) p.2.str) run

/-- `__check_command_python_error`: the substituted run string still
contains `"$command_python "` and the environment holds no truthy
`command_python`. -/
def checkCommandPythonError (commandRun : String) (env : Env) : Bool :=
  pyContains commandRun "$command_python " && !truthyGet env "command_python"

/-- `__check_input_miss_error`: when the command requires input, test
`parameters["input"] == ""`; `none` models the `KeyError` raised when
`"input"` is absent (the lookup is short-circuited away when input is not
required). -/
def checkInputMissError (command : Command) (env : Env) : Option Bool :=
  if command.input = "required" then
    match dictGet? env "input" with
    | none => none
    | some v => some v.isEmptyStr
  else some false

/-- `__check_parameters_miss_error`: some declared parameter name still
occurs as a `$name` token in the substituted run string. -/
def checkParametersMissError (command : Command) (commandRun : String) : Bool :=
  let names := command.paramNames
  if names.length = 0 then false
  else !(names.filter (fun n => pyContains commandRun ("$" ++ n))).isEmpty

/-- The `json.dumps` marshalling of list/dict values applied to the
environment just before `subprocess.Popen`. -/
def dumpEnv (env : Env) : Env := env.map (fun p => (p.1, p.2.dumped))

/-- The outcome of the `except`-handler: the default `(-1, "")` result,
an `Exception:` line on stderr. -/
def exceptionOutcome (spawnAttempted : Bool) : Outcome :=
  { result := some (-1, ""), spawned := spawnAttempted,
    errOut := [exceptionMessage], llmCalled := false }

/-- `run_command_with_parameters` (lines 83–122): build the environment,
substitute, run the three precondition checks in order, then spawn; any
exception inside the `try` degrades to the default `(-1, "")` result. -/
def runCommandWithParameters (ctx : Ctx) (commandName : String)
    (command : Command) (parameters : Env) (modelName parentHash : String)
    (history : Value) : Outcome :=
  match command.steps.head? with
  | none => exceptionOutcome false
  | some run =>
    match buildEnv ctx command parameters modelName parentHash history run with
    | none => exceptionOutcome false
    | some env =>
      let commandRun := substituteRun env run
      if checkCommandPythonError commandRun env then
        { result := some (-1, ""), spawned := false,
          errOut := [devchatCommandMissErrorMessage], llmCalled := false }
      else
        match checkInputMissError command env with
        | none => exceptionOutcome false
        | some true =>
          { result := some (if ctx.readme then (0, "") else (-1, "")),
            spawned := false,
            errOut := if ctx.readme then [] else [inputMissMessage commandName],
            llmCalled := false }
        | some false =>
          if checkParametersMissError command commandRun then
            { result := some (if ctx.readme then (0, "") else (-1, "")),
              spawned := false,
              errOut := if ctx.readme then [] else [missingParamsMessage],
              llmCalled := false }
          else
            match ctx.exec commandRun (dumpEnv env) with
            | some r =>
              { result := some r, spawned := true, errOut := [],
                llmCalled := false }
            | none => exceptionOutcome true

/-! ## `run_command` -/

/-- Lines 57–63: strip the raw input, remove every occurrence of
`/commandname`, backslash-escape double quotes, single quotes and
newlines. -/
def sanitizeInput (commandName inputText : String) : String :=
  pyReplace (pyReplace (pyReplace
    (pyReplace (pyStrip inputText) ("/" ++ commandName) "")
    "\"" "\\\"")
    "'" "\\'")
    "\n" "\\n"

/-- The parameters dict literal of line 78:
`{"input": input_text, **arguments}`. -/
def runCommandParams (sanitized : String) (arguments : Env) : Env :=
  dictUpdate [("input", Value.vstr sanitized)] arguments

/-- `_call_function_by_llm`, as the `llm` oracle of the context: `none`
when `select_function_by_llm` returned nothing, otherwise the returned
argument mapping. -/
def callFunctionByLLM (ctx : Ctx) : Option Env := ctx.llm

/-- `run_command` (lines 45–81): sanitize the input; when the command
declares parameters, decline non-`gpt-` models (Python `None`), invoke
the LLM and fail with `(-1, "")` when it produced no (or an empty)
argument mapping; otherwise hand over to
`run_command_with_parameters`. -/
def runCommand (ctx : Ctx) (modelName commandName : String)
    (command : Command) (history : Value) (inputText parentHash : String) :
    Outcome :=
  let sanitized := sanitizeInput commandName inputText
  if !(command.paramNames.isEmpty) then
    if !pyStartsWith modelName "gpt-" then
      { result := none, spawned := false, errOut := [], llmCalled := false }
    else
      match callFunctionByLLM ctx with
      | none =>
        { result := some (-1, ""), spawned := false,
          errOut := [noValidParamsMessage], llmCalled := true }
      | some args =>
        if args.isEmpty then
          { result := some (-1, ""), spawned := false,
            errOut := [noValidParamsMessage], llmCalled := true }
        else
          { runCommandWithParameters ctx commandName command
              (runCommandParams sanitized args) modelName parentHash history
            with llmCalled := true }
  else
    runCommandWithParameters ctx commandName command
      (runCommandParams sanitized []) modelName parentHash history

/-! ## Predicates and comparison definitions for the claims -/

/-- Escaped-text well-formedness, continued: `prev` is the previous
character; a quote is admissible only when `prev` is a backslash, a
newline never. -/
def noUnescAux : Char → List Char → Bool
  | _, [] => true
  | prev, c :: rest =>
    (!(c = '\n') && (!(c = '"' || c = '\'') || prev = '\\')) && noUnescAux c rest

/-- The text contains no newline and no double or single quote that is
not immediately preceded by a backslash. -/
def noUnesc : List Char → Bool
  | [] => true
  | c :: rest => (!(c = '\n') && !(c = '"' || c = '\'')) && noUnescAux c rest

/-- Escaping of one character of the double-quote pass. -/
def escDQ (a : Char) : List Char := if a = '"' then ['\\', '"'] else [a]

/-- Escaping of one character of the single-quote pass. -/
def escSQ (a : Char) : List Char := if a = '\'' then ['\\', '\''] else [a]

/-- Escaping of one character of the newline pass. -/
def escNL (a : Char) : List Char := if a = '\n' then ['\\', 'n'] else [a]

/-- The three escape passes fused into one per-character map. -/
def escAll (a : Char) : List Char :=
  (escDQ a).flatMap (fun b => (escSQ b).flatMap escNL)

/-- Modelled from the claim's words for comparison: a sanitization that
strips only the LEADING `/commandname` token and then applies the same
three escape passes.  (The source instead removes every occurrence.) -/
def sanitizeSpecLeading (commandName inputText : String) : String :=
  let s := pyStrip inputText
  let tok := "/" ++ commandName
  let stripped : String :=
    if pyStartsWith s tok then ⟨s.data.drop tok.data.length⟩ else s
  pyReplace (pyReplace (pyReplace stripped "\"" "\\\"") "'" "\\'") "\n" "\\n"

/-- Modelled from the spec's words for comparison: substitution performed
once per key, in mapping-iteration order, written as plain recursion over
the binding list. -/
def substituteOncePerKey : Env → String → String
  | [], run => run
  | (k, v) :: rest, run => substituteOncePerKey rest (pyReplace run ("$" ++ k) v.str)

/-- Collapse a raising `runtime.json` read into a missing one; used to
state that unreadable/malformed files are silently skipped. -/
def RuntimeRead.degrade : RuntimeRead → RuntimeRead
  | RuntimeRead.raisesErr => RuntimeRead.missing
  | r => r

/-! ## Concrete fixtures for counterexamples and witnesses -/

/-- An empty history value (`[]` is falsy). -/
def emptyHistory : Value := Value.vraw "[]" "[]" false

/-- A context whose ambient environment lacks `PYTHONPATH`, whose spawn
succeeds, with no runtime configs, no README, and a declining LLM. -/
def ctxNoPythonPath : Ctx :=
  { osEnv := [("HOME", "/home/u")]
    sysExecutable := "/usr/bin/python3"
    fsRuntime := fun _ => RuntimeRead.missing
    readme := false
    exec := fun _ _ => some (0, "hi\n")
    llm := none }

/-- The same context with `PYTHONPATH` present in the ambient
environment. -/
def ctxWithPythonPath : Ctx :=
  { ctxNoPythonPath with osEnv := [("PYTHONPATH", "/p"), ("HOME", "/home/u")] }

/-- `ctxWithPythonPath` with a README present next to the command. -/
def ctxWithReadme : Ctx := { ctxWithPythonPath with readme := true }

/-- A plain command: no declared parameters, input not required. -/
def cmdEcho : Command :=
  { path := "/w/cmds/demo/command.yml", input := "", parameters := none,
    steps := ["echo hi"] }

/-- A command whose run string is exactly `$command_python`, with no
trailing space. -/
def cmdPythonNoSpace : Command := { cmdEcho with steps := ["$command_python"] }

/-- A command whose run string contains `$command_python ` (with the
trailing space) and which requires input. -/
def cmdPythonRequired : Command :=
  { cmdEcho with input := "required", steps := ["$command_python run.py"] }

/-- A command declaring one parameter `topic` with run string
`echo $topic`. -/
def cmdTopic : Command :=
  { cmdEcho with parameters := some ["topic"], steps := ["echo $topic"] }

/-- A command living under `/a/b`, used for the runtime-merge claim. -/
def cmdNested : Command :=
  { path := "/a/b/command.yml", input := "", parameters := none,
    steps := ["echo"] }

/-- A filesystem with `runtime.json` in `/a` (defining `key = x`) and in
`/a/b` (defining `key = y`), `/a` containing `/a/b`. -/
def fsNested (x y : String) : String → RuntimeRead := fun p =>
  if p = "/a/runtime.json" then RuntimeRead.ok [("key", x)]
  else if p = "/a/b/runtime.json" then RuntimeRead.ok [("key", y)]
  else RuntimeRead.missing

/-- A filesystem on which every `runtime.json` read raises. -/
def fsRaise : String → RuntimeRead := fun _ => RuntimeRead.raisesErr

/-- A command requiring input, with a plain run string. -/
def cmdRequiredEcho : Command := { cmdEcho with input := "required" }

/-- An argument mapping returned by the LLM that itself binds `input`. -/
def argsOverride : Env :=
  [("topic", Value.vstr "cats"), ("input", Value.vstr "override")]

/-- `ctxWithPythonPath` whose LLM oracle returns `argsOverride`. -/
def ctxLLM : Ctx := { ctxWithPythonPath with llm := some argsOverride }

/-- The environment built in the C3 witness scenario. -/
def envW3 : Env :=
  (buildEnv ctxWithPythonPath cmdPythonRequired [("input", Value.vstr "")]
    "gpt-4" "ph" emptyHistory "$command_python run.py").getD []

/-- The environment built in the C4 witness scenario. -/
def envW4 : Env :=
  (buildEnv ctxWithReadme cmdRequiredEcho [("input", Value.vstr "")]
    "gpt-4" "ph" emptyHistory "echo hi").getD []

/-- Every binding of `d` whose key is `k` carries the value `v`. -/
def allVal (d : Env) (k : String) (v : Value) : Prop :=
  ∀ p ∈ d, p.1 = k → p.2 = v

/-! ## Helper lemmas on dictionaries -/

theorem find?_map_upsert (d : Env) (k : String) (v : Value)
    (h : hasKey d k = true) :
    (d.map (fun p => if p.1 = k then (k, v) else p)).find?
      (fun p => p.1 = k) = some (k, v) := by
  induction d with
  | nil => simp [hasKey] at h
  | cons q rest ih =>
    by_cases hq : q.1 = k
    · simp only [List.map_cons, if_pos hq]
      exact List.find?_cons_of_pos _ (by simp)
    · simp only [List.map_cons, if_neg hq]
      rw [List.find?_cons_of_neg _ (by simp [hq])]
      apply ih
      simpa [hasKey, hq] using h

theorem find?_none_of_not_hasKey (d : Env) (k : String)
    (h : hasKey d k = false) :
    d.find? (fun p => p.1 = k) = none := by
  induction d with
  | nil => simp
  | cons q rest ih =>
    simp only [hasKey, List.any_cons, Bool.or_eq_false_iff,
      decide_eq_false_iff_not] at h
    rw [List.find?_cons_of_neg _ (by simp [h.1])]
    exact ih (by simp [hasKey, h.2])

theorem dictGet?_upsert_self (d : Env) (k : String) (v : Value) :
    dictGet? (upsert d k v) k = some v := by
  unfold upsert
  by_cases h : hasKey d k
  · rw [if_pos h]
    unfold dictGet?
    rw [find?_map_upsert d k v h]
    rfl
  · rw [if_neg h]
    unfold dictGet?
    rw [List.find?_append, find?_none_of_not_hasKey d k (by simpa using h)]
    simp

theorem find?_map_upsert_ne (rest : Env) (k k' : String) (v : Value)
    (h : k ≠ k') :
    (rest.map (fun p => if p.1 = k' then (k', v) else p)).find?
      (fun p => p.1 = k) = rest.find? (fun p => p.1 = k) := by
  induction rest with
  | nil => rfl
  | cons q t ih =>
    by_cases hq : q.1 = k'
    · rw [List.map_cons, if_pos hq,
        List.find?_cons_of_neg _ (by simp [Ne.symm h]),
        List.find?_cons_of_neg _ (by simp [hq, Ne.symm h]), ih]
    · rw [List.map_cons, if_neg hq]
      by_cases hqk : q.1 = k
      · rw [List.find?_cons_of_pos _ (by simp [hqk]),
          List.find?_cons_of_pos _ (by simp [hqk])]
      · rw [List.find?_cons_of_neg _ (by simp [hqk]),
          List.find?_cons_of_neg _ (by simp [hqk]), ih]

theorem dictGet?_upsert_ne (d : Env) (k k' : String) (v : Value)
    (h : k ≠ k') :
    dictGet? (upsert d k' v) k = dictGet? d k := by
  unfold upsert
  split
  · unfold dictGet?
    rw [find?_map_upsert_ne d k k' v h]
  · unfold dictGet?
    rw [List.find?_append]
    have h1 : List.find? (fun p => p.1 = k) [(k', v)] = none := by
      simp [Ne.symm h]
    rw [h1]
    simp

theorem any_map_upsert_ne (d : Env) (k k' : String) (v : Value)
    (h : k ≠ k') :
    ((d.map (fun p => if p.1 = k' then (k', v) else p)).any
      (fun p => p.1 = k)) = d.any (fun p => p.1 = k) := by
  induction d with
  | nil => rfl
  | cons q rest ih =>
    simp only [List.map_cons, List.any_cons]
    rw [ih]
    congr 1
    by_cases hq : q.1 = k'
    · simp [hq, Ne.symm h]
    · simp [hq]

theorem hasKey_upsert_ne (d : Env) (k k' : String) (v : Value) (h : k ≠ k') :
    hasKey (upsert d k' v) k = hasKey d k := by
  unfold upsert
  split
  · exact any_map_upsert_ne d k k' v h
  · unfold hasKey
    simp [Ne.symm h]

theorem dictGet?_dictDel_self (d : Env) (k : String) :
    dictGet? (dictDel d k) k = none := by
  unfold dictDel dictGet?
  induction d with
  | nil => simp
  | cons q rest ih =>
    rw [List.filter_cons]
    by_cases hq : q.1 = k
    · rw [if_neg (by simp [hq])]
      exact ih
    · rw [if_pos (by simp [hq])]
      rw [List.find?_cons_of_neg _ (by simp [hq])]
      exact ih

theorem dictGet?_dictDel_ne (d : Env) (k k' : String) (h : k ≠ k') :
    dictGet? (dictDel d k') k = dictGet? d k := by
  unfold dictDel dictGet?
  induction d with
  | nil => simp
  | cons q rest ih =>
    rw [List.filter_cons]
    by_cases hq : q.1 = k'
    · rw [if_neg (by simp [hq]),
        List.find?_cons_of_neg _ (by simp [hq, Ne.symm h])]
      exact ih
    · rw [if_pos (by simp [hq])]
      by_cases hqk : q.1 = k
      · rw [List.find?_cons_of_pos _ (by simp [hqk]),
          List.find?_cons_of_pos _ (by simp [hqk])]
      · rw [List.find?_cons_of_neg _ (by simp [hqk]),
          List.find?_cons_of_neg _ (by simp [hqk])]
        exact ih

theorem hasKey_upsert_self (d : Env) (k : String) (v : Value) :
    hasKey (upsert d k v) k = true := by
  unfold upsert
  split
  · rename_i h
    unfold hasKey at h ⊢
    simp only [List.any_eq_true, decide_eq_true_eq] at h ⊢
    obtain ⟨p, hp, hpk⟩ := h
    exact ⟨(k, v), List.mem_map.mpr ⟨p, hp, by simp [hpk]⟩, rfl⟩
  · unfold hasKey
    simp

theorem hasKey_upsert_mono (d : Env) (k k' : String) (v : Value)
    (h : hasKey d k = true) : hasKey (upsert d k' v) k = true := by
  by_cases hk : k = k'
  · subst hk
    exact hasKey_upsert_self d k v
  · rw [hasKey_upsert_ne d k k' v hk]
    exact h

theorem hasKey_dictUpdate_mono (upd : Env) :
    ∀ (d : Env) (k : String), hasKey d k = true →
      hasKey (dictUpdate d upd) k = true := by
  induction upd with
  | nil => intro d k h; exact h
  | cons q rest ih =>
    intro d k h
    exact ih (upsert d q.1 q.2) k (hasKey_upsert_mono d k q.1 q.2 h)

theorem allVal_upsert_self (d : Env) (k : String) (v : Value) :
    allVal (upsert d k v) k v := by
  unfold upsert
  split
  · intro p hp hpk
    obtain ⟨q, hqmem, hqe⟩ := List.mem_map.mp hp
    by_cases hqk : q.1 = k
    · rw [if_pos hqk] at hqe
      rw [← hqe]
    · rw [if_neg hqk] at hqe
      subst hqe
      exact absurd hpk hqk
  · rename_i h
    intro p hp hpk
    rcases List.mem_append.mp hp with h1 | h1
    · exfalso
      apply h
      unfold hasKey
      simp only [List.any_eq_true, decide_eq_true_eq]
      exact ⟨p, h1, hpk⟩
    · simp only [List.mem_singleton] at h1
      rw [h1]

theorem allVal_upsert_ne (d : Env) (k k' : String) (v w : Value)
    (hne : k' ≠ k) (h : allVal d k v) : allVal (upsert d k' w) k v := by
  unfold upsert
  split
  · intro p hp hpk
    obtain ⟨q, hq, hqe⟩ := List.mem_map.mp hp
    by_cases hqk : q.1 = k'
    · rw [if_pos hqk] at hqe
      rw [← hqe] at hpk
      exact absurd hpk hne
    · rw [if_neg hqk] at hqe
      subst hqe
      exact h q hq hpk
  · intro p hp hpk
    rcases List.mem_append.mp hp with h1 | h1
    · exact h p h1 hpk
    · simp only [List.mem_singleton] at h1
      exfalso
      exact hne (h1 ▸ hpk : (k', w).1 = k)

theorem allVal_dictUpdate (upd : Env) :
    ∀ (d : Env) (k : String) (v : Value),
      (∀ q ∈ upd, q.1 ≠ k) → allVal d k v → allVal (dictUpdate d upd) k v := by
  induction upd with
  | nil => intro d k v _ h; exact h
  | cons q rest ih =>
    intro d k v hq h
    exact ih (upsert d q.1 q.2) k v
      (fun r hr => hq r (List.mem_cons_of_mem q hr))
      (allVal_upsert_ne d k q.1 v q.2 (hq q (List.mem_cons_self q rest)) h)

theorem upsert_eq_self (d : Env) (k : String) (v : Value)
    (hk : hasKey d k = true) (hv : allVal d k v) : upsert d k v = d := by
  unfold upsert
  rw [if_pos hk]
  conv_rhs => rw [← List.map_id d]
  apply List.map_congr_left
  intro p hp
  by_cases hpk : p.1 = k
  · rw [if_pos hpk, ← hv p hp hpk, ← hpk]
    rfl
  · rw [if_neg hpk]
    rfl

theorem dictUpdate_idem (cfg : Env) (h : (cfg.map Prod.fst).Nodup) :
    ∀ acc : Env, dictUpdate (dictUpdate acc cfg) cfg = dictUpdate acc cfg := by
  induction cfg with
  | nil => intro acc; rfl
  | cons p rest ih =>
    intro acc
    obtain ⟨k, v⟩ := p
    simp only [List.map_cons, List.nodup_cons] at h
    have hrest : ∀ q ∈ rest, q.1 ≠ k := by
      intro q hq hqk
      exact h.1 (hqk ▸ List.mem_map_of_mem Prod.fst hq)
    show dictUpdate (upsert (dictUpdate (upsert acc k v) rest) k v) rest
      = dictUpdate (upsert acc k v) rest
    have heq : upsert (dictUpdate (upsert acc k v) rest) k v
        = dictUpdate (upsert acc k v) rest := by
      apply upsert_eq_self
      · exact hasKey_dictUpdate_mono rest (upsert acc k v) k
          (hasKey_upsert_self acc k v)
      · exact allVal_dictUpdate rest (upsert acc k v) k v hrest
          (allVal_upsert_self acc k v)
    rw [heq]
    exact ih h.2 (upsert acc k v)

theorem dictGet?_dictUpdate_not_hasKey (upd : Env) :
    ∀ (base : Env) (k : String), (∀ q ∈ upd, q.1 ≠ k) →
      dictGet? (dictUpdate base upd) k = dictGet? base k := by
  induction upd with
  | nil => intro base k _; rfl
  | cons q rest ih =>
    intro base k h
    show dictGet? (dictUpdate (upsert base q.1 q.2) rest) k = _
    rw [ih (upsert base q.1 q.2) k (fun r hr => h r (List.mem_cons_of_mem q hr)),
      dictGet?_upsert_ne _ _ _ _ (Ne.symm (h q (List.mem_cons_self q rest)))]

theorem dictGet?_dictUpdate_nodup (upd : Env) :
    ∀ (base : Env) (k : String), (upd.map Prod.fst).Nodup →
      dictGet? (dictUpdate base upd) k
        = match dictGet? upd k with
          | some v => some v
          | none => dictGet? base k := by
  induction upd with
  | nil => intro base k _; rfl
  | cons q rest ih =>
    intro base k h
    simp only [List.map_cons, List.nodup_cons] at h
    show dictGet? (dictUpdate (upsert base q.1 q.2) rest) k = _
    by_cases hk : q.1 = k
    · have hrest : ∀ r ∈ rest, r.1 ≠ k := by
        intro r hr hrk
        exact h.1 (hk ▸ hrk ▸ List.mem_map_of_mem Prod.fst hr)
      rw [dictGet?_dictUpdate_not_hasKey rest (upsert base q.1 q.2) k hrest,
        hk, dictGet?_upsert_self]
      have hcons : dictGet? (q :: rest) k = some q.2 := by
        unfold dictGet?
        rw [List.find?_cons_of_pos _ (by simp [hk])]
        rfl
      rw [hcons]
    · rw [ih (upsert base q.1 q.2) k h.2,
        dictGet?_upsert_ne _ _ _ _ (Ne.symm hk)]
      have hcons : dictGet? (q :: rest) k = dictGet? rest k := by
        unfold dictGet?
        rw [List.find?_cons_of_neg _ (by simp [hk])]
      rw [hcons]

/-! ## Helper lemmas on strings and escaping -/

theorem noUnescAux_of_noUnesc : ∀ (l : List Char) (prev : Char),
    noUnesc l = true → noUnescAux prev l = true := by
  intro l prev h
  cases l with
  | nil => rfl
  | cons c rest =>
    simp only [noUnesc, noUnescAux, Bool.and_eq_true, Bool.or_eq_true] at h ⊢
    tauto

theorem noUnescAux_append (p q : List Char) (prev : Char)
    (hp : noUnescAux prev p = true) (hq : noUnesc q = true) :
    noUnescAux prev (p ++ q) = true := by
  induction p generalizing prev with
  | nil => exact noUnescAux_of_noUnesc q prev hq
  | cons c rest ih =>
    simp only [List.cons_append, noUnescAux, Bool.and_eq_true] at hp ⊢
    exact ⟨hp.1, ih c hp.2⟩

theorem noUnesc_append (p q : List Char)
    (hp : noUnesc p = true) (hq : noUnesc q = true) :
    noUnesc (p ++ q) = true := by
  cases p with
  | nil => exact hq
  | cons c rest =>
    simp only [List.cons_append, noUnesc, Bool.and_eq_true] at hp ⊢
    exact ⟨hp.1, noUnescAux_append rest q c hp.2 hq⟩

theorem noUnesc_flatMap (f : Char → List Char)
    (hf : ∀ a, noUnesc (f a) = true) :
    ∀ l : List Char, noUnesc (l.flatMap f) = true := by
  intro l
  induction l with
  | nil => rfl
  | cons c rest ih =>
    rw [List.flatMap_cons]
    exact noUnesc_append _ _ (hf c) ih

theorem flatMap_comp (l : List Char) (f g : Char → List Char) :
    (l.flatMap f).flatMap g = l.flatMap (fun a => (f a).flatMap g) := by
  induction l with
  | nil => rfl
  | cons c rest ih =>
    rw [List.flatMap_cons, List.flatMap_cons, List.flatMap_append, ih]

theorem replaceAllFuel_single (c : Char) (rep : List Char) :
    ∀ (fuel : Nat) (l : List Char), l.length ≤ fuel →
      replaceAllFuel [c] rep fuel l
        = l.flatMap (fun a => if a = c then rep else [a]) := by
  intro fuel
  induction fuel with
  | zero =>
    intro l hl
    have hnil : l = [] := List.eq_nil_of_length_eq_zero (Nat.le_zero.mp hl)
    subst hnil
    rfl
  | succ n ih =>
    intro l hl
    cases l with
    | nil => rfl
    | cons a s =>
      have hpre : [c].isPrefixOf (a :: s) = (c == a) := by
        simp [List.isPrefixOf]
      rw [List.flatMap_cons]
      by_cases ha : a = c
      · have hcond : (Bool.not ([c] : List Char).isEmpty
            && [c].isPrefixOf (a :: s)) = true := by
          rw [hpre]
          simp [ha]
        have hlen : s.length ≤ n := by
          simpa using Nat.le_of_succ_le_succ hl
        simp [replaceAllFuel, hcond, ha, ih s hlen]
      · have hcond : (Bool.not ([c] : List Char).isEmpty
            && [c].isPrefixOf (a :: s)) = false := by
          rw [hpre]
          simp [Ne.symm ha]
        have hlen : s.length ≤ n := by
          simpa using Nat.le_of_succ_le_succ hl
        simp [replaceAllFuel, hcond, ha, ih s hlen]
        exact fun h => absurd h.symm ha

theorem pyReplace_single (s pat rep : String) (c : Char) (hp : pat.data = [c]) :
    (pyReplace s pat rep).data
      = s.data.flatMap (fun a => if a = c then rep.data else [a]) := by
  unfold pyReplace replaceAll
  rw [hp]
  exact replaceAllFuel_single c rep.data s.data.length s.data (le_refl _)

theorem noUnesc_escAll (a : Char) : noUnesc (escAll a) = true := by
  by_cases h1 : a = '"'
  · subst h1; decide
  by_cases h2 : a = '\''
  · subst h2; decide
  by_cases h3 : a = '\n'
  · subst h3; decide
  simp [escAll, escDQ, escSQ, escNL, h1, h2, h3, noUnesc, noUnescAux]

theorem sanitizeInput_data (name input : String) :
    (sanitizeInput name input).data
      = ((pyReplace (pyStrip input) ("/" ++ name) "").data).flatMap escAll := by
  unfold sanitizeInput
  rw [pyReplace_single _ _ _ '\n' rfl, pyReplace_single _ _ _ '\'' rfl,
    pyReplace_single _ _ _ '"' rfl, flatMap_comp, flatMap_comp]
  congr 1

theorem noUnesc_sanitizeInput (name input : String) :
    noUnesc (sanitizeInput name input).data = true := by
  rw [sanitizeInput_data]
  exact noUnesc_flatMap escAll noUnesc_escAll _

/-! ## Helper lemmas on the pipeline -/

theorem substituteRun_eq_oncePerKey :
    ∀ (env : Env) (run : String),
      substituteRun env run = substituteOncePerKey env run := by
  intro env
  induction env with
  | nil => intro run; rfl
  | cons p rest ih =>
    intro run
    obtain ⟨k, v⟩ := p
    show List.foldl _ (pyReplace run ("$" ++ k) v.str) rest = _
    exact ih _

theorem runtimeStep_degrade (fs : String → RuntimeRead) (acc : Env)
    (p : String) :
    runtimeStep (fun q => (fs q).degrade) acc p = runtimeStep fs acc p := by
  unfold runtimeStep
  cases hf : fs p <;> simp [hf, RuntimeRead.degrade]

theorem loadRuntime_degrade (fs : String → RuntimeRead) (command : Command) :
    loadCommandRuntime (fun p => (fs p).degrade) command
      = loadCommandRuntime fs command := by
  unfold loadCommandRuntime
  have hfold : ∀ (files : List String) (acc : Env),
      files.foldl (runtimeStep (fun q => (fs q).degrade)) acc
        = files.foldl (runtimeStep fs) acc := by
    intro files
    induction files with
    | nil => intro acc; rfl
    | cons f rest ih =>
      intro acc
      simp only [List.foldl_cons]
      rw [runtimeStep_degrade]
      exact ih _
  rw [hfold]

theorem runtimeFiles_cmdNested :
    runtimeFiles cmdNested
      = ["runtime.json", "/a/runtime.json", "/a/b/runtime.json"] := by
  decide

theorem nested_override (x y : String) :
    dictGet? (loadCommandRuntime (fsNested x y) cmdNested) "key"
      = some (Value.vstr y) := by
  simp [loadCommandRuntime, runtimeFiles_cmdNested, runtimeStep, fsNested,
    dictUpdate, upsert, hasKey, dictGet?]

/-! ## Claim C1 -/

/-- Claim C1, counterexample to the claim as stated: in an invocation
whose ambient environment has no `PYTHONPATH` and whose run string does
not reference `$devchat_python`, the `del env["PYTHONPATH"]` raises, so
the whole run aborts with `(-1, "")` and no spawn is attempted (the
environment build yields no result), although the spawn oracle would have
succeeded — the removal DOES cause the run to fail. -/
theorem C1_counterexample :
    runCommandWithParameters ctxNoPythonPath "demo" cmdEcho
        [("input", Value.vstr "x")] "gpt-4" "ph" emptyHistory
      = { result := some (-1, ""), spawned := false,
          errOut := [exceptionMessage], llmCalled := false } ∧
    pyContains "echo hi" "$devchat_python " = false ∧
    buildEnv ctxNoPythonPath cmdEcho [("input", Value.vstr "x")] "gpt-4" "ph"
        emptyHistory "echo hi" = none ∧
    ctxNoPythonPath.exec "echo hi" [] = some (0, "hi\n") := by
  refine ⟨by decide, by decide, by decide, rfl⟩

/-- Claim C1 (amended): in every invocation of
`run_command_with_parameters` whose merged environment contains
`PYTHONPATH` before `__update_devchat_python_path` runs, the built
environment drops `PYTHONPATH` iff the run string does not reference the
`$devchat_python` executable (the occurrence `"$devchat_python "`), keeps
it unchanged when the run string does reference it, and in both cases
injects `devchat_python` (the normalized interpreter path) and
`DEVCHAT_PYTHONPATH`; under that proviso the removal never makes the
environment build fail.  (When `PYTHONPATH` is absent the build raises
instead — see the counterexample.) -/
theorem C1_pythonpath_policy (ctx : Ctx) (command : Command)
    (parameters : Env) (modelName parentHash : String) (history : Value)
    (run : String)
    (h : hasKey (mergedEnv ctx command parameters modelName parentHash history)
      "PYTHONPATH" = true) :
    ∃ env',
      buildEnv ctx command parameters modelName parentHash history run
        = some env' ∧
      (pyContains run "$devchat_python " = false →
        dictGet? env' "PYTHONPATH" = none) ∧
      (pyContains run "$devchat_python " = true →
        dictGet? env' "PYTHONPATH" =
          dictGet? (mergedEnv ctx command parameters modelName parentHash
            history) "PYTHONPATH") ∧
      dictGet? env' "devchat_python" =
        some (Value.vstr (pyReplace ctx.sysExecutable "\\" "/")) ∧
      dictGet? env' "DEVCHAT_PYTHONPATH" =
        some (Value.vstr ((osGet ctx.osEnv "DEVCHAT_PYTHONPATH").getD
          ((osGet ctx.osEnv "PYTHONPATH").getD ""))) := by
  set env := mergedEnv ctx command parameters modelName parentHash history
    with henv
  set dval : Value := Value.vstr ((osGet ctx.osEnv "DEVCHAT_PYTHONPATH").getD
    ((osGet ctx.osEnv "PYTHONPATH").getD "")) with hdval
  set env1 := upsert env "DEVCHAT_PYTHONPATH" dval with henv1
  set pyv : Value := Value.vstr (pyReplace ctx.sysExecutable "\\" "/")
    with hpyv
  by_cases hc : pyContains run "$devchat_python " = true
  · refine ⟨upsert env1 "devchat_python" pyv, ?_, ?_, ?_, ?_, ?_⟩
    · simp only [buildEnv, updateDevchatPythonPath, hc, if_true]
      rfl
    · intro habs; rw [hc] at habs; cases habs
    · intro _
      rw [dictGet?_upsert_ne _ _ _ _ (by decide),
        dictGet?_upsert_ne _ _ _ _ (by decide)]
    · exact dictGet?_upsert_self _ _ _
    · rw [dictGet?_upsert_ne _ _ _ _ (by decide)]
      exact dictGet?_upsert_self _ _ _
  · have hc' : pyContains run "$devchat_python " = false := by
      simpa using hc
    have hk1 : hasKey env1 "PYTHONPATH" = true := by
      rw [henv1, hasKey_upsert_ne _ _ _ _ (by decide)]
      exact h
    refine ⟨upsert (dictDel env1 "PYTHONPATH") "devchat_python" pyv,
      ?_, ?_, ?_, ?_, ?_⟩
    · simp only [buildEnv, updateDevchatPythonPath, hc', if_false,
        Bool.false_eq_true, hk1, if_true]
      rfl
    · intro _
      rw [dictGet?_upsert_ne _ _ _ _ (by decide)]
      exact dictGet?_dictDel_self _ _
    · intro habs; rw [hc'] at habs; cases habs
    · exact dictGet?_upsert_self _ _ _
    · rw [dictGet?_upsert_ne _ _ _ _ (by decide),
        dictGet?_dictDel_ne _ _ _ (by decide)]
      exact dictGet?_upsert_self _ _ _

/-- Witness for `C1_pythonpath_policy` at a concrete invocation whose
ambient environment carries `PYTHONPATH`. -/
theorem C1_pythonpath_policy_witness :
    hasKey (mergedEnv ctxWithPythonPath cmdEcho [("input", Value.vstr "x")]
      "gpt-4" "ph" emptyHistory) "PYTHONPATH" = true ∧
    (∃ env',
      buildEnv ctxWithPythonPath cmdEcho [("input", Value.vstr "x")] "gpt-4"
          "ph" emptyHistory "echo hi" = some env' ∧
      (pyContains "echo hi" "$devchat_python " = false →
        dictGet? env' "PYTHONPATH" = none) ∧
      (pyContains "echo hi" "$devchat_python " = true →
        dictGet? env' "PYTHONPATH" =
          dictGet? (mergedEnv ctxWithPythonPath cmdEcho
            [("input", Value.vstr "x")] "gpt-4" "ph" emptyHistory)
            "PYTHONPATH") ∧
      dictGet? env' "devchat_python" =
        some (Value.vstr (pyReplace ctxWithPythonPath.sysExecutable
          "\\" "/")) ∧
      dictGet? env' "DEVCHAT_PYTHONPATH" =
        some (Value.vstr ((osGet ctxWithPythonPath.osEnv
          "DEVCHAT_PYTHONPATH").getD
          ((osGet ctxWithPythonPath.osEnv "PYTHONPATH").getD "")))) :=
  ⟨by decide,
    C1_pythonpath_policy ctxWithPythonPath cmdEcho [("input", Value.vstr "x")]
      "gpt-4" "ph" emptyHistory "echo hi" (by decide)⟩

/-! ## Claim C2 -/

/-- Claim C2, counterexample to the claim as stated: the source removes
EVERY occurrence of `/commandname`, not only the leading one —
`"/x a /x b"` sanitizes to `" a  b"`, while the claimed leading-only
stripping (`sanitizeSpecLeading`) would produce `" a /x b"`. -/
theorem C2_counterexample :
    sanitizeInput "x" "/x a /x b" = " a  b" ∧
    sanitizeSpecLeading "x" "/x a /x b" = " a /x b" ∧
    (" a  b" : String) ≠ " a /x b" := by
  refine ⟨by decide, by decide, by decide⟩

/-- Claim C2 (amended): the sanitization performed by `run_command`
strips the input, removes every left-to-right non-overlapping occurrence
of `/commandname` (not only the leading one), and backslash-escapes every
double quote, single quote and newline; the sanitized text never contains
a newline nor a quote that is not immediately preceded by a backslash. -/
theorem C2_sanitize_escaping :
    (∀ commandName inputText : String,
      noUnesc (sanitizeInput commandName inputText).data = true) ∧
    sanitizeInput "x" "/x a /x b" = " a  b" ∧
    sanitizeInput "x" "/x say \"hi\"\nok" = " say \\\"hi\\\"\\nok" :=
  ⟨fun n i => noUnesc_sanitizeInput n i, by decide, by decide⟩

/-! ## Claim C3 -/

/-- Claim C3, counterexample to the claim as stated: a run string that
references the `$command_python` token WITHOUT a trailing space escapes
`__check_command_python_error` (which looks for `"$command_python "`), so
even though `command_python` is not resolved in the environment the child
process is spawned and its result — not `(-1, "")` — is returned. -/
theorem C3_counterexample :
    runCommandWithParameters ctxWithPythonPath "demo" cmdPythonNoSpace
        [("input", Value.vstr "x")] "gpt-4" "ph" emptyHistory
      = { result := some (0, "hi\n"), spawned := true, errOut := [],
          llmCalled := false } ∧
    pyContains "$command_python" "$command_python" = true ∧
    (buildEnv ctxWithPythonPath cmdPythonNoSpace [("input", Value.vstr "x")]
        "gpt-4" "ph" emptyHistory "$command_python").map
      (fun e => truthyGet e "command_python") = some false ∧
    some ((0 : Int), "hi\n") ≠ some ((-1 : Int), "") := by
  refine ⟨by decide, by decide, by decide, by decide⟩

/-- Claim C3 (amended): for every invocation whose substituted run string
still contains `"$command_python "` (the token followed by a space, as
the source checks) while the environment holds no truthy `command_python`
value, `run_command_with_parameters` returns `(-1, "")`, spawns no child
process, and prints the fixed installation-instruction message — for
every README state and all other parameters. -/
theorem C3_command_python_gate (ctx : Ctx) (commandName : String)
    (command : Command) (parameters : Env) (modelName parentHash : String)
    (history : Value) (run : String) (env : Env)
    (hstep : command.steps.head? = some run)
    (hbuild : buildEnv ctx command parameters modelName parentHash history run
      = some env)
    (hctok : pyContains (substituteRun env run) "$command_python " = true)
    (hmiss : truthyGet env "command_python" = false) :
    runCommandWithParameters ctx commandName command parameters modelName
      parentHash history
      = { result := some (-1, ""), spawned := false,
          errOut := [devchatCommandMissErrorMessage], llmCalled := false } := by
  have hchk : checkCommandPythonError (substituteRun env run) env = true := by
    unfold checkCommandPythonError
    rw [hctok, hmiss]
    rfl
  unfold runCommandWithParameters
  rw [hstep]
  simp only [hbuild, hchk, if_true]

/-- Witness for `C3_command_python_gate`: a concrete command whose run
string is `$command_python run.py`, with a README present being
irrelevant (here absent) and `command_python` unresolved. -/
theorem C3_command_python_gate_witness :
    runCommandWithParameters ctxWithPythonPath "demo" cmdPythonRequired
        [("input", Value.vstr "")] "gpt-4" "ph" emptyHistory
      = { result := some (-1, ""), spawned := false,
          errOut := [devchatCommandMissErrorMessage], llmCalled := false } :=
  C3_command_python_gate ctxWithPythonPath "demo" cmdPythonRequired
    [("input", Value.vstr "")] "gpt-4" "ph" emptyHistory
    "$command_python run.py" envW3 (by decide) (by decide) (by decide)
    (by decide)

/-! ## Claim C4 -/

/-- Claim C4, counterexample to the claim as stated: a command that
declares `input: required` with empty sanitized input, next to a README,
but whose run string ALSO contains an unresolved `"$command_python "`:
the tool-path check runs first and is fatal, so the result is `(-1, "")`
although the claim says a README yields `(0, "")`. -/
theorem C4_counterexample :
    runCommandWithParameters ctxWithReadme "demo" cmdPythonRequired
        [("input", Value.vstr "")] "gpt-4" "ph" emptyHistory
      = { result := some (-1, ""), spawned := false,
          errOut := [devchatCommandMissErrorMessage], llmCalled := false } ∧
    ctxWithReadme.readme = true ∧
    cmdPythonRequired.input = "required" ∧
    some ((-1 : Int), "") ≠ some ((0 : Int), "") := by
  refine ⟨by decide, by decide, by decide, by decide⟩

/-- Claim C4 (amended): provided the tool-path (`$command_python`) check
does not fire first, every command that either declares `input: required`
with empty sanitized input, or declares named parameters one of whose
literal `$paramName` tokens survives substitution, short-circuits before
any child process is spawned, and the result is `(0, "")` when a
(non-empty, readable) README.md exists next to the command file and
`(-1, "")` otherwise. -/
theorem C4_short_circuit (ctx : Ctx) (commandName : String)
    (command : Command) (parameters : Env) (modelName parentHash : String)
    (history : Value) (run : String) (env : Env)
    (hstep : command.steps.head? = some run)
    (hbuild : buildEnv ctx command parameters modelName parentHash history run
      = some env)
    (hnocp : checkCommandPythonError (substituteRun env run) env = false)
    (hcase :
      (command.input = "required" ∧
        dictGet? env "input" = some (Value.vstr "")) ∨
      ((command.input = "required" → ∃ v, dictGet? env "input" = some v) ∧
        command.paramNames ≠ [] ∧
        ∃ n ∈ command.paramNames,
          pyContains (substituteRun env run) ("$" ++ n) = true)) :
    (runCommandWithParameters ctx commandName command parameters modelName
        parentHash history).result
      = some (if ctx.readme then ((0 : Int), "") else (-1, "")) ∧
    (runCommandWithParameters ctx commandName command parameters modelName
        parentHash history).spawned = false := by
  unfold runCommandWithParameters
  rw [hstep]
  simp only [hbuild, hnocp, if_false, Bool.false_eq_true]
  rcases hcase with ⟨hreq, hin⟩ | ⟨hreq, hne, n, hn, hcont⟩
  · have hchk : checkInputMissError command env = some true := by
      unfold checkInputMissError
      rw [if_pos hreq, hin]
      rfl
    simp [hchk]
  · have hparams : checkParametersMissError command (substituteRun env run)
        = true := by
      unfold checkParametersMissError
      rw [if_neg (by simpa [List.length_eq_zero] using hne)]
      have hmem : n ∈ command.paramNames.filter
          (fun m => pyContains (substituteRun env run) ("$" ++ m)) :=
        List.mem_filter.mpr ⟨hn, hcont⟩
      cases hfil : command.paramNames.filter
          (fun m => pyContains (substituteRun env run) ("$" ++ m)) with
      | nil => rw [hfil] at hmem; cases hmem
      | cons a l => simp
    by_cases hri : command.input = "required"
    · obtain ⟨v, hv⟩ := hreq hri
      have hchk : checkInputMissError command env = some v.isEmptyStr := by
        unfold checkInputMissError
        rw [if_pos hri, hv]
      cases hb : v.isEmptyStr
      · rw [hb] at hchk
        simp [hchk, hparams]
      · rw [hb] at hchk
        simp [hchk]
    · have hchk : checkInputMissError command env = some false := by
        unfold checkInputMissError
        rw [if_neg hri]
      simp [hchk, hparams]

/-- Witness for `C4_short_circuit`: a required-input command invoked with
empty input next to a README, with no tool-path problem. -/
theorem C4_short_circuit_witness :
    (runCommandWithParameters ctxWithReadme "demo" cmdRequiredEcho
        [("input", Value.vstr "")] "gpt-4" "ph" emptyHistory).result
      = some (if ctxWithReadme.readme then ((0 : Int), "") else (-1, "")) ∧
    (runCommandWithParameters ctxWithReadme "demo" cmdRequiredEcho
        [("input", Value.vstr "")] "gpt-4" "ph" emptyHistory).spawned
      = false :=
  C4_short_circuit ctxWithReadme "demo" cmdRequiredEcho
    [("input", Value.vstr "")] "gpt-4" "ph" emptyHistory "echo hi" envW4
    (by decide) (by decide) (by decide)
    (Or.inl ⟨rfl, by decide⟩)

/-! ## Claim C5 -/

/-- Claim C5 (confirmed): substitution replaces, once per key and in
mapping-iteration order, every literal occurrence of `$key` by the
stringified value (the fold over the environment equals the
once-per-key recursion `substituteOncePerKey` modelled from the spec's
words); there is no recursive re-substitution (the `$a` produced by
substituting `$a` is left alone) and no protection against a key
matching a prefix of a longer token (`$foo` rewrites inside
`$foobar`). -/
theorem C5_substitution_once_per_key :
    (∀ (env : Env) (run : String),
      substituteRun env run = substituteOncePerKey env run) ∧
    substituteRun [("foo", Value.vstr "X")] "$foobar" = "Xbar" ∧
    substituteRun [("a", Value.vstr "$a$b"), ("b", Value.vstr "y")] "$a"
      = "$ay" :=
  ⟨substituteRun_eq_oncePerKey, by decide, by decide⟩

/-! ## Claim C6 -/

/-- Claim C6 (confirmed): the runtime-config resolver merges the
`runtime.json` files along the ancestry of the command's directory with
deeper directories overriding ancestors on key collision (for nested
directories `/a` and `/a/b` defining `key = x` and `key = y`, the
resolved value is `y`); the merge is idempotent (re-applying an object
with distinct keys changes nothing); and a file whose read raises is
treated exactly like a missing file, so a malformed or unreadable
`runtime.json` never aborts the run. -/
theorem C6_runtime_merge :
    (∀ x y : String,
      dictGet? (loadCommandRuntime (fsNested x y) cmdNested) "key"
        = some (Value.vstr y)) ∧
    (∀ cfg : Env, (cfg.map Prod.fst).Nodup →
      ∀ acc : Env, dictUpdate (dictUpdate acc cfg) cfg = dictUpdate acc cfg) ∧
    (∀ (fs : String → RuntimeRead) (command : Command),
      loadCommandRuntime (fun p => (fs p).degrade) command
        = loadCommandRuntime fs command) :=
  ⟨nested_override, dictUpdate_idem, loadRuntime_degrade⟩

/-- Witness for `C6_runtime_merge` at concrete inputs: the nested
override, one idempotent merge with a concrete singleton object, and the
all-raising filesystem behaving like the all-missing one. -/
theorem C6_runtime_merge_witness :
    dictGet? (loadCommandRuntime (fsNested "x" "y") cmdNested) "key"
      = some (Value.vstr "y") ∧
    dictUpdate (dictUpdate [("a", Value.vstr "1")] [("k", Value.vstr "v")])
        [("k", Value.vstr "v")]
      = dictUpdate [("a", Value.vstr "1")] [("k", Value.vstr "v")] ∧
    loadCommandRuntime (fun p => (fsRaise p).degrade) cmdNested
      = loadCommandRuntime fsRaise cmdNested :=
  ⟨C6_runtime_merge.1 "x" "y",
    C6_runtime_merge.2.1 [("k", Value.vstr "v")] (by decide)
      [("a", Value.vstr "1")],
    C6_runtime_merge.2.2 fsRaise cmdNested⟩

/-! ## Claim C7 -/

/-- Claim C7 (confirmed): for every command declaring parameters, when
the model family supports function calling but the LLM extraction
produces no arguments (a null or an empty mapping), `run_command` returns
`(-1, "")`, attempts no spawn, and prints the diagnostic to the error
stream. -/
theorem C7_llm_no_arguments (ctx : Ctx) (modelName commandName : String)
    (command : Command) (history : Value) (inputText parentHash : String)
    (hp : command.paramNames ≠ [])
    (hm : pyStartsWith modelName "gpt-" = true)
    (hllm : ctx.llm = none ∨ ctx.llm = some []) :
    runCommand ctx modelName commandName command history inputText parentHash
      = { result := some (-1, ""), spawned := false,
          errOut := [noValidParamsMessage], llmCalled := true } := by
  unfold runCommand callFunctionByLLM
  have hne : command.paramNames.isEmpty = false := by
    cases hpn : command.paramNames with
    | nil => exact absurd hpn hp
    | cons a l => rfl
  rw [hne]
  rcases hllm with h | h <;> simp [hm, h]

/-- Witness for `C7_llm_no_arguments`: the `topic`-declaring command with
a declining LLM oracle. -/
theorem C7_llm_no_arguments_witness :
    runCommand ctxWithPythonPath "gpt-4" "demo" cmdTopic emptyHistory
        "hello" "ph"
      = { result := some (-1, ""), spawned := false,
          errOut := [noValidParamsMessage], llmCalled := true } :=
  C7_llm_no_arguments ctxWithPythonPath "gpt-4" "demo" cmdTopic emptyHistory
    "hello" "ph" (by decide) (by decide) (Or.inl (by decide))

/-! ## Claim C8 -/

/-- Claim C8 (confirmed): for every command with a non-empty parameters
mapping, when the active model is not of the `gpt-` family, `run_command`
returns Python `None` (no `(exit code, stdout)` pair), invokes no LLM and
spawns no process. -/
theorem C8_model_unsupported (ctx : Ctx) (modelName commandName : String)
    (command : Command) (history : Value) (inputText parentHash : String)
    (hp : command.paramNames ≠ [])
    (hm : pyStartsWith modelName "gpt-" = false) :
    runCommand ctx modelName commandName command history inputText parentHash
      = { result := none, spawned := false, errOut := [],
          llmCalled := false } := by
  unfold runCommand
  have hne : command.paramNames.isEmpty = false := by
    cases hpn : command.paramNames with
    | nil => exact absurd hpn hp
    | cons a l => rfl
  rw [hne]
  simp [hm]

/-- Witness for `C8_model_unsupported`: a non-`gpt-` model name. -/
theorem C8_model_unsupported_witness :
    runCommand ctxWithPythonPath "claude-3" "demo" cmdTopic emptyHistory
        "hello" "ph"
      = { result := none, spawned := false, errOut := [],
          llmCalled := false } :=
  C8_model_unsupported ctxWithPythonPath "claude-3" "demo" cmdTopic
    emptyHistory "hello" "ph" (by decide) (by decide)

/-! ## Claim C9 -/

/-- Claim C9 (confirmed): `run_command_with_parameters` always returns a
well-formed `(exit code, stdout)` pair for every invocation and oracle
behavior — every internal exception (missing step, failing environment
build, missing `input` key, spawn or I/O failure) is caught; and whenever
the spawn oracle raises, the attempted spawn yields the default
`(-1, "")`. -/
theorem C9_no_exception_propagation (ctx : Ctx) (commandName : String)
    (command : Command) (parameters : Env) (modelName parentHash : String)
    (history : Value) :
    (∃ p, (runCommandWithParameters ctx commandName command parameters
      modelName parentHash history).result = some p) ∧
    ((runCommandWithParameters { ctx with exec := fun _ _ => none }
        commandName command parameters modelName parentHash history).spawned
        = true →
      (runCommandWithParameters { ctx with exec := fun _ _ => none }
        commandName command parameters modelName parentHash history).result
        = some (-1, "")) := by
  constructor
  · unfold runCommandWithParameters
    dsimp only
    repeat' split
    all_goals exact ⟨_, rfl⟩
  · unfold runCommandWithParameters
    dsimp only
    repeat' split
    all_goals simp [exceptionOutcome]

/-- Witness for `C9_no_exception_propagation`: a concrete invocation
whose spawn raises; the attempted run degrades to `(-1, "")`. -/
theorem C9_no_exception_propagation_witness :
    (runCommandWithParameters
        { ctxWithPythonPath with exec := fun _ _ => none } "demo" cmdEcho
        [("input", Value.vstr "x")] "gpt-4" "ph" emptyHistory).result
      = some (-1, "") :=
  (C9_no_exception_propagation ctxWithPythonPath "demo" cmdEcho
    [("input", Value.vstr "x")] "gpt-4" "ph" emptyHistory).2 (by decide)

/-! ## Claim C10 -/

/-- Claim C10 (confirmed): in `run_command`, when the LLM returns a
truthy argument mapping it is spread over `{"input": sanitized_input}`,
so an extracted `"input"` key overrides the sanitized input text, which
reaches substitution only when the extracted mapping lacks that key. -/
theorem C10_input_override :
    (∀ (ctx : Ctx) (modelName commandName : String) (command : Command)
      (history : Value) (inputText parentHash : String) (args : Env),
      command.paramNames ≠ [] → pyStartsWith modelName "gpt-" = true →
      ctx.llm = some args → args ≠ [] →
      runCommand ctx modelName commandName command history inputText
          parentHash
        = { runCommandWithParameters ctx commandName command
              (runCommandParams (sanitizeInput commandName inputText) args)
              modelName parentHash history
            with llmCalled := true }) ∧
    (∀ (args : Env) (s : String), (args.map Prod.fst).Nodup →
      dictGet? (runCommandParams s args) "input"
        = some ((dictGet? args "input").getD (Value.vstr s))) := by
  constructor
  · intro ctx modelName commandName command history inputText parentHash args
      hp hm hllm hargs
    unfold runCommand callFunctionByLLM
    have hne : command.paramNames.isEmpty = false := by
      cases hpn : command.paramNames with
      | nil => exact absurd hpn hp
      | cons a l => rfl
    have hae : args.isEmpty = false := by
      cases ha : args with
      | nil => exact absurd ha hargs
      | cons a l => rfl
    rw [hne]
    simp [hm, hllm, hae]
  · intro args s h
    unfold runCommandParams
    rw [dictGet?_dictUpdate_nodup args [("input", Value.vstr s)] "input" h]
    cases hv : dictGet? args "input" with
    | none => rfl
    | some v => rfl

/-- Witness for `C10_input_override`: a concrete LLM mapping that binds
both `topic` and `input`; its `input` value wins the lookup. -/
theorem C10_input_override_witness :
    runCommand ctxLLM "gpt-4" "demo" cmdTopic emptyHistory "hello" "ph"
      = { runCommandWithParameters ctxLLM "demo" cmdTopic
            (runCommandParams (sanitizeInput "demo" "hello") argsOverride)
            "gpt-4" "ph" emptyHistory
          with llmCalled := true } ∧
    dictGet? (runCommandParams "hello" argsOverride) "input"
      = some ((dictGet? argsOverride "input").getD (Value.vstr "hello")) :=
  ⟨C10_input_override.1 ctxLLM "gpt-4" "demo" cmdTopic emptyHistory "hello"
      "ph" argsOverride (by decide) (by decide) (by decide) (by decide),
    C10_input_override.2 argsOverride "hello" (by decide)⟩

end DevChat
